import Mathlib

/-!
Shallow embedding of rencpp's extension-function binding layer
(`src/include/rencpp/extension.hpp`): the per-signature dispatch table,
the self-identifying trampoline produced by `REN_STD_FUNCTION`, the
`FunctionGenerator` constructor (registration), and the argument/result
marshalling done by `bounceShim` / `applyFun` / `applyFunImpl`.

External collaborators (`values.hpp`, `engine.hpp`, `runtime.hpp`) are not in
the sources; following the spec they are treated as opaque operations
(value construction from a cell, stack slot access, status codes) and are
modelled from the spec where the embedding needs them.
-/

namespace ren

/-- Modelled from the spec: a raw cell of the foreign runtime's argument
stack (`RenCell`, declared in the runtime headers outside the illustrated
sources). The claims only exercise integer-valued cells, so a cell is
modelled by its integer payload. -/
abbrev RenCell := Int

/-- Modelled from the spec: an opaque engine/session handle
(`RenEngineHandle`, declared in `engine.hpp` outside the illustrated
sources). Only its identity matters to this layer. -/
structure RenEngineHandle where
  data : Nat
deriving DecidableEq

/-- The `typedef int RenShimId` from `extension.hpp`: the small integer id a
trampoline captures; `-1` is the unset sentinel. -/
abbrev RenShimId := Int

/-- Modelled from the spec: the raw argument stack handed to a native
function. Arguments are read by fixed positional offset
(`REN_STACK_ARGUMENT(stack, i)` is `args i`) and the return value is
written at one fixed, runtime-defined offset (`REN_STACK_RETURN(stack)`
is `ret`). -/
structure RenStack where
  args : Nat → RenCell
  ret : RenCell

/-- Modelled from the spec: the "success" status code a native function
returns after a normal invocation has written its result. The source
comments that `R_RET` is `0`, so success is `0`. -/
def REN_SUCCESS : Int := 0

/-- Modelled from the spec: the distinguished status code returned only by a
trampoline's identify-phase call, distinct from `REN_SUCCESS`. -/
def REN_SHIM_INITIALIZED : Int := 1

/-- Modelled from the spec: a high-level `ren::Value` wrapping its raw cell
(the source takes `result.cell` from the callable's result). -/
structure Value where
  cell : RenCell
deriving DecidableEq

/-- Errors of the layer: a conversion failure from `Value::construct`, a
failure raised while the callable runs, or a programming-error condition
the source treats as unreachable under correct usage. -/
inductive RenError where
  | conversionError
  | applyError
  | unreachable
deriving DecidableEq

/-- Model of `FunType`, i.e. `std::function<R(Ts...)>`: the registered callable, applied to
the ordered list of constructed argument values. Application may fail
(model of an exception thrown by the callable). -/
def FunType := List Value → Except RenError Value

/-- A `TableEntry` of `FunctionGenerator`: engine handle plus the callable. -/
structure TableEntry where
  engine : RenEngineHandle
  fun_ : FunType

/-- Static description of one `FunctionGenerator<R, Ts...>` specialization:
the arity `sizeof...(Ts)` and, for each position `i`, the effect of
`Value::construct<std::decay<utility::type_at<i, Ts...>>>` on an engine
handle and a raw cell. Modelled from the spec: `Value::construct` is the
opaque "construct a value of type T from a raw argument using an engine
context" operation, which may fail with a conversion error. -/
structure SigModel where
  arity : Nat
  construct : Nat → RenEngineHandle → RenCell → Except RenError Value

/-- The per-signature dispatch table `FunctionGenerator<R, Ts...>::table`,
an append-only vector of entries indexed by issued id. -/
abbrev Table := List TableEntry

/-- Lookup `table[id]` under the source's usage: defined only for ids `0 ≤ id <
table.size()`; an out-of-range id is the programming-error condition the
source never checks for (unreachable under correct usage). -/
def tableLookup (table : Table) (id : RenShimId) : Option TableEntry :=
  if id < 0 then none else table[id.toNat]?

/-! Marshalling, `applyFunImpl` and `applyFun`.

`applyFunImpl` evaluates the single call expression

    fun(Value::construct<decay<type_at<Indices, Ts...>>>(
            engine, *REN_STACK_ARGUMENT(stack, Indices))...)

The pack expands to one ordinary function call with `arity` argument
expressions. ISO C++ leaves the order in which the argument expressions of
a call are evaluated unspecified, so the embedding is parametrised by the
evaluation order the implementation chooses: a permutation `order` of
`[0, ..., arity-1]`. Each construction still reads the stack slot at its
own position and produces the value for its own position; once an
exception is raised the remaining argument expressions are not evaluated.
An event trace records which constructions ran (and in what order) and
whether the callable itself was invoked. -/

/-- Observable events of one marshalled invocation: `construct i engine c`
records that `Value::construct` for argument position `i` ran on engine
`engine` and raw cell `c`; `apply` records that the registered callable
was invoked. -/
inductive MarshalEvent where
  | construct (pos : Nat) (engine : RenEngineHandle) (c : RenCell)
  | apply
deriving DecidableEq

/-- Evaluate the argument constructions of `applyFunImpl`'s call expression
in the evaluation order `order` chosen by the implementation. Produces
the trace of construction events performed and either the list of
`(position, value)` pairs in evaluation order, or the first error raised
(after which no further argument expression is evaluated). -/
def evalArgsInOrder (sig : SigModel) (engine : RenEngineHandle)
    (stack : RenStack) : List Nat →
    List MarshalEvent × Except RenError (List (Nat × Value))
  | [] => ([], .ok [])
  | i :: rest =>
    match sig.construct i engine (stack.args i) with
    | .error e => ([.construct i engine (stack.args i)], .error e)
    | .ok v =>
      let r := evalArgsInOrder sig engine stack rest
      (.construct i engine (stack.args i) :: r.1,
       r.2.map (fun l => (i, v) :: l))

/-- Recover the value constructed for position `i` from the pairs collected
in evaluation order. -/
def lookupPos (i : Nat) : List (Nat × Value) → Option Value
  | [] => none
  | (j, v) :: rest => if j = i then some v else lookupPos i rest

/-- Reassemble the positional argument list `[v₀, ..., v_{k-1}]` the call
expression passes to `fun`: position `p` of the call receives the value
constructed by the argument expression at position `p`, independent of
the evaluation order. -/
def posArgs (pairs : List (Nat × Value)) : List Nat → Option (List Value)
  | [] => some []
  | i :: is =>
    match lookupPos i pairs with
    | none => none
    | some v => (posArgs pairs is).map (fun vs => v :: vs)

/-- Model of `applyFun` and `applyFunImpl`: construct a value for every argument
position from the stack and apply `fun_` to the full ordered tuple.
`order` is the implementation's (unspecified) evaluation order of the
call's argument expressions. Returns the event trace and the callable's
result or the propagated error. -/
def applyFun (sig : SigModel) (fun_ : FunType) (engine : RenEngineHandle)
    (stack : RenStack) (order : List Nat) :
    List MarshalEvent × Except RenError Value :=
  match evalArgsInOrder sig engine stack order with
  | (tr, .error e) => (tr, .error e)
  | (tr, .ok pairs) =>
    match posArgs pairs (List.range sig.arity) with
    | none => (tr, .error .unreachable)
    | some args => (tr ++ [.apply], fun_ args)

/-- Model of `FunctionGenerator::bounceShim`: look the entry up in the per-signature
table (copying it out under the mutex), marshal the arguments and apply
the callable via `applyFun`, then write the result's raw cell into the
stack's return slot and return `REN_SUCCESS`. The returned stack is the
stack as left by the call: it is written only on success. A raised error
propagates to the caller; the out-of-range lookup `table[id]` is the
programming-error condition `RenError.unreachable`. -/
def bounceShim (sig : SigModel) (table : Table) (id : RenShimId)
    (stack : RenStack) (order : List Nat) :
    List MarshalEvent × RenStack × Except RenError Int :=
  match tableLookup table id with
  | none => ([], stack, .error .unreachable)
  | some entry =>
    match applyFun sig entry.fun_ entry.engine stack order with
    | (tr, .error e) => (tr, stack, .error e)
    | (tr, .ok result) =>
      (tr, { stack with ret := result.cell }, .ok REN_SUCCESS)

/-! The self-identifying trampoline, `REN_STD_FUNCTION`. -/

/-- A value of type `RenShimBouncer` that can be stored in the capture
slots: per signature the only bouncer ever written is `&bounceShim` of
that `FunctionGenerator` specialization. -/
inductive RenShimBouncer where
  | bounceShimRef
deriving DecidableEq

/-- The process-wide Registration Capture Slots: `internal::shimIdToCapture`
(unset sentinel `-1`) and `internal::shimBouncerToCapture` (null when
unset). -/
structure CaptureSlots where
  shimIdToCapture : RenShimId
  shimBouncerToCapture : Option RenShimBouncer
deriving DecidableEq

/-- The empty capture slots: id unset (`-1`), bouncer null. -/
def CaptureSlots.empty : CaptureSlots := ⟨-1, none⟩

/-- The private statics of one `REN_STD_FUNCTION` trampoline instance:
`static RenShimId id = -1; static RenShimBouncer bouncer = nullptr;`. -/
structure ShimState where
  id : RenShimId
  bouncer : Option RenShimBouncer
deriving DecidableEq

/-- The fresh statics of a just-instantiated trampoline. -/
def ShimState.fresh : ShimState := ⟨-1, none⟩

/-- Outcome of one call of a `REN_STD_FUNCTION` trampoline: either the
identify branch ran (the call returned `REN_SHIM_INITIALIZED` without
touching the stack) or the call forwarded to the captured bouncer,
passing the captured id and the caller's stack. -/
inductive ShimOutcome where
  | identified
  | forwarded (b : Option RenShimBouncer) (id : RenShimId)
      (stack : Option RenStack)

/-- One call of the `REN_STD_FUNCTION` lambda: if `id != -1` it returns
`bouncer(id, stack)` (modelled as the `forwarded` outcome); otherwise it
captures the Registration Capture Slots into its statics and returns
`REN_SHIM_INITIALIZED`. The stack argument may be null (`nullptr` in the
identify call issued by registration). -/
def renStdFunctionStep (slots : CaptureSlots) (st : ShimState)
    (stack : Option RenStack) : ShimState × ShimOutcome :=
  if st.id ≠ -1 then
    (st, .forwarded st.bouncer st.id stack)
  else
    (⟨slots.shimIdToCapture, slots.shimBouncerToCapture⟩, .identified)

/-- A sequence of calls to one trampoline instance, each supplied the
capture slots it observes and the stack it is called on; returns the
final statics and the outcome of each call. -/
def shimRun (st : ShimState) :
    List (CaptureSlots × Option RenStack) → ShimState × List ShimOutcome
  | [] => (st, [])
  | c :: cs =>
    let r := renStdFunctionStep c.1 st c.2
    let rest := shimRun r.1 cs
    (rest.1, r.2 :: rest.2)

/-! Registration, `FunctionGenerator::FunctionGenerator`. -/

/-- A spec block, e.g. `"a [integer!] b [integer!]"` (`Block` lives in the
value headers outside the illustrated sources; it is carried opaquely). -/
structure Block where
  source : String
deriving DecidableEq

/-- Result of calling a shim on a null stack, as observed by registration:
either the call returned a status code, or it forwarded to a bouncer on
the null stack (which the bounced call would dereference — unreachable
under correct usage, where registration is handed a fresh trampoline). -/
inductive ShimNullOutcome where
  | status (code : Int)
  | forwardedNull (id : RenShimId)
deriving DecidableEq

/-- Model of `RenShimPointer`: a native-convention entry point, as registration uses
it — one call on a null stack, reading the capture slots and updating the
callee's private statics. -/
def RenShimPointer := CaptureSlots → ShimState → ShimState × ShimNullOutcome

/-- The null-stack call behaviour of a `REN_STD_FUNCTION` trampoline. -/
def renStdShimNull : RenShimPointer := fun slots st =>
  if st.id ≠ -1 then (st, .forwardedNull st.id)
  else (⟨slots.shimIdToCapture, slots.shimBouncerToCapture⟩,
        .status REN_SHIM_INITIALIZED)

/-- How a constructor run can abort: a failed `assert` on the capture
slots, the `std::runtime_error` thrown when the first shim call does not
return `REN_SHIM_INITIALIZED`, or the unreachable null-stack forward. -/
inductive RegError where
  | assertionFailed
  | shimNotInitialized
  | nullStackForward
deriving DecidableEq

/-- The registration-visible state: the process-wide capture slots and the
signature's dispatch table (`extensionTablesMutex` guards both; the whole
constructor is one atomic step of this state). -/
structure RegState where
  slots : CaptureSlots
  table : Table

/-- Model of the constructor `FunctionGenerator::FunctionGenerator`: under the global mutex, assert
the capture slots are empty, write the about-to-be-issued id (the current
table size) and `&bounceShim` into them, call the shim once on a null
stack and require `REN_SHIM_INITIALIZED` (throwing otherwise — note the
capture slots are not cleared on the throw path), clear the slots, then
append the `(engine, fun)` entry to the table.
(`Function::finishInit` is runtime-specific finalization outside this
layer and adds nothing to the modelled state.) On abort, the error
carries the state as left at the throw. -/
def functionGenerator (engine : RenEngineHandle) (spec : Block)
    (shim : RenShimPointer) (fun_ : FunType) (s : RegState)
    (st : ShimState) :
    Except (RegError × RegState × ShimState) (RegState × ShimState) :=
  if s.slots = CaptureSlots.empty then
    match shim ⟨(s.table.length : Int), some .bounceShimRef⟩ st with
    | (st1, .forwardedNull _) =>
      .error (.nullStackForward,
        ⟨⟨(s.table.length : Int), some .bounceShimRef⟩, s.table⟩, st1)
    | (st1, .status code) =>
      if code = REN_SHIM_INITIALIZED then
        .ok (⟨CaptureSlots.empty, s.table ++ [⟨engine, fun_⟩]⟩, st1)
      else
        .error (.shimNotInitialized,
          ⟨⟨(s.table.length : Int), some .bounceShimRef⟩, s.table⟩, st1)
  else
    .error (.assertionFailed, s, st)

/-! Concrete instances for the spec's scenarios. -/

/-- Modelled from the spec scenario: the signature of a two-argument
integer callable (`a [integer!] b [integer!]`). `Value::construct` for
`integer!` wraps the cell's integer payload and always succeeds. -/
def intSig : SigModel :=
  { arity := 2, construct := fun _ _ c => .ok ⟨c⟩ }

/-- The two-argument integer-adding callable of the spec's scenario. -/
def adder : FunType := fun args =>
  match args with
  | [a, b] => .ok ⟨a.cell + b.cell⟩
  | _ => .error .applyError

/-- A concrete engine handle. -/
def engine0 : RenEngineHandle := ⟨0⟩

/-- A second, distinct engine handle. -/
def engine1 : RenEngineHandle := ⟨1⟩

/-- The spec block of the scenario. -/
def specBlock : Block := ⟨"a [integer!] b [integer!]"⟩

/-- A stack whose argument slots hold the values `(2, 3)` and whose return
slot is as yet unwritten (zero). -/
def stack23 : RenStack :=
  { args := fun i => if i = 0 then 2 else if i = 1 then 3 else 0, ret := 0 }

/-- Modelled from the spec scenario: a two-argument signature whose
construction of argument position 1 fails with a conversion error (type
mismatch), while position 0 converts fine. -/
def failSig : SigModel :=
  { arity := 2,
    construct := fun i _ c =>
      if i = 1 then .error .conversionError else .ok ⟨c⟩ }

/-- A mis-wired shim: a `RenShimPointer` whose first call does not return
`REN_SHIM_INITIALIZED` (the shim/table wiring mismatch of the spec's
registration-time error). -/
def badShim : RenShimPointer := fun _ st => (st, .status REN_SUCCESS)

/-! Helper lemmas about the marshalling pipeline. -/

/-- When every construction in `order` succeeds with value `v i`, the
evaluation collects exactly one construction event per index of `order`
in that order, pairing each index with its value. -/
lemma evalArgsInOrder_all_ok (sig : SigModel) (engine : RenEngineHandle)
    (stack : RenStack) (v : Nat → Value) :
    ∀ order : List Nat,
      (∀ i ∈ order, sig.construct i engine (stack.args i) = .ok (v i)) →
      evalArgsInOrder sig engine stack order =
        (order.map (fun i => .construct i engine (stack.args i)),
         .ok (order.map (fun i => (i, v i))))
  | [], _ => rfl
  | i :: rest, h => by
    have hi := h i (List.mem_cons_self i rest)
    have hrest := evalArgsInOrder_all_ok sig engine stack v rest
      (fun j hj => h j (List.mem_cons_of_mem i hj))
    simp [evalArgsInOrder, hi, hrest, Except.map]

/-- Lookup of a position in evaluation-ordered pairs built from `v`. -/
lemma lookupPos_map_of_mem (v : Nat → Value) :
    ∀ (l : List Nat) (i : Nat), i ∈ l →
      lookupPos i (l.map (fun j => (j, v j))) = some (v i)
  | [], i, h => absurd h (List.not_mem_nil i)
  | j :: rest, i, h => by
    by_cases hji : j = i
    · subst hji
      simp [lookupPos]
    · have hmem : i ∈ rest := by
        rcases List.mem_cons.mp h with h1 | h2
        · exact absurd h1.symm hji
        · exact h2
      simp [lookupPos, hji, lookupPos_map_of_mem v rest i hmem]

/-- Positional reassembly succeeds and recovers `v` at every requested
position, as long as every requested position was evaluated. -/
lemma posArgs_map_of_subset (v : Nat → Value) (l : List Nat) :
    ∀ is : List Nat, (∀ i ∈ is, i ∈ l) →
      posArgs (l.map (fun j => (j, v j))) is = some (is.map v)
  | [], _ => rfl
  | i :: is, h => by
    have hi := lookupPos_map_of_mem v l i (h i (List.mem_cons_self i is))
    have hrec := posArgs_map_of_subset v l is
      (fun j hj => h j (List.mem_cons_of_mem i hj))
    simp [posArgs, hi, hrec]

/-- When `order` is a permutation of the argument positions and every
construction succeeds, `applyFun` performs one construction per position
(in evaluation order), then applies the callable to the positionally
ordered tuple of values. -/
lemma applyFun_all_ok (sig : SigModel) (fun_ : FunType)
    (engine : RenEngineHandle) (stack : RenStack) (order : List Nat)
    (v : Nat → Value)
    (hord : order.Perm (List.range sig.arity))
    (hcon : ∀ i ∈ order, sig.construct i engine (stack.args i) = .ok (v i)) :
    applyFun sig fun_ engine stack order =
      (order.map (fun i => .construct i engine (stack.args i)) ++ [.apply],
       fun_ ((List.range sig.arity).map v)) := by
  have he := evalArgsInOrder_all_ok sig engine stack v order hcon
  have hsub : ∀ i ∈ List.range sig.arity, i ∈ order :=
    fun i hi => hord.mem_iff.mpr hi
  have hp := posArgs_map_of_subset v order (List.range sig.arity) hsub
  simp [applyFun, he, hp]

/-- Argument evaluation alone never produces an `apply` event. -/
lemma apply_not_mem_evalArgs (sig : SigModel) (engine : RenEngineHandle)
    (stack : RenStack) :
    ∀ order : List Nat,
      MarshalEvent.apply ∉ (evalArgsInOrder sig engine stack order).1
  | [] => by simp [evalArgsInOrder]
  | i :: rest => by
    have hrest := apply_not_mem_evalArgs sig engine stack rest
    rcases hc : sig.construct i engine (stack.args i) with e | w
    · simp [evalArgsInOrder, hc]
    · simp [evalArgsInOrder, hc, hrest]

/-! Helper lemmas about the trampoline and the registration sequence. -/

/-- An already-identified trampoline forwards every call to its captured
bouncer with its captured id, leaving its statics unchanged. -/
lemma shimRun_already_identified (st : ShimState) (hid : st.id ≠ -1) :
    ∀ calls : List (CaptureSlots × Option RenStack),
      shimRun st calls =
        (st, calls.map (fun c => .forwarded st.bouncer st.id c.2))
  | [] => rfl
  | c :: cs => by
    have hstep : renStdFunctionStep c.1 st c.2 =
        (st, .forwarded st.bouncer st.id c.2) := by
      simp [renStdFunctionStep, hid]
    have hrest := shimRun_already_identified st hid cs
    simp [shimRun, hstep, hrest]

/-- A successful registration with a fresh `REN_STD_FUNCTION` trampoline:
the shim captures the id `table.size()` and the bouncer, the slots are
cleared, and the entry is appended. -/
lemma functionGenerator_std_ok (engine : RenEngineHandle) (spec : Block)
    (fun_ : FunType) (t : Table) :
    functionGenerator engine spec renStdShimNull fun_
        ⟨CaptureSlots.empty, t⟩ ShimState.fresh =
      .ok (⟨CaptureSlots.empty, t ++ [⟨engine, fun_⟩]⟩,
           ⟨(t.length : Int), some .bounceShimRef⟩) := by
  simp [functionGenerator, renStdShimNull, ShimState.fresh,
    REN_SHIM_INITIALIZED]

/-- Any successful constructor run clears the capture slots and appends
exactly the one new `(engine, fun)` entry at the end of the table. -/
lemma functionGenerator_ok_parts (engine : RenEngineHandle) (spec : Block)
    (shim : RenShimPointer) (fun_ : FunType) (s : RegState) (st : ShimState)
    (s' : RegState) (st' : ShimState)
    (h : functionGenerator engine spec shim fun_ s st = .ok (s', st')) :
    s'.slots = CaptureSlots.empty ∧
    s'.table = s.table ++ [⟨engine, fun_⟩] := by
  unfold functionGenerator at h
  by_cases he : s.slots = CaptureSlots.empty
  · rw [if_pos he] at h
    rcases hs : shim ⟨(s.table.length : Int), some .bounceShimRef⟩ st
      with ⟨st1, o⟩
    rw [hs] at h
    cases o with
    | forwardedNull i => simp at h
    | status code =>
      by_cases hc : code = REN_SHIM_INITIALIZED
      · simp only [hc, if_pos] at h
        obtain ⟨h1, h2⟩ := Prod.mk.injEq .. ▸ Except.ok.inj h
        subst h1
        exact ⟨rfl, rfl⟩
      · simp [hc] at h
  · rw [if_neg he] at h
    simp at h

/-- Lookup at a natural-number id is plain list indexing. -/
lemma tableLookup_natCast (t : Table) (n : Nat) :
    tableLookup t (n : Int) = t[n]? := by
  have h : ¬ ((n : Int) < 0) := not_lt.mpr (Int.natCast_nonneg n)
  simp [tableLookup, h]

/-- Appending entries never changes the result of a lookup at an id that
was already in bounds. -/
lemma tableLookup_append_of_lt (t t' : Table) (id : RenShimId)
    (h : id.toNat < t.length) :
    tableLookup (t ++ t') id = tableLookup t id := by
  by_cases h0 : id < 0
  · simp [tableLookup, h0]
  · simp [tableLookup, h0, List.getElem?_append_left h]

/-- The entry appended by a registration is found at the issued id. -/
lemma tableLookup_concat_length (t : Table) (e : TableEntry) :
    tableLookup (t ++ [e]) (t.length : Int) = some e := by
  rw [tableLookup_natCast]
  exact List.getElem?_concat_length t e

/-! Claim theorems. -/

/-- C1: for every id registered in a signature's dispatch table, invoking
the dispatcher `bounceShim(id, stack)` applies the table entry's callable
to the tuple of values constructed from the stack's argument slots using
that entry's engine handle, writes the callable's result's raw cell into
the stack's designated return slot, and returns the success status. -/
theorem C1_bounceShim_dispatch (sig : SigModel) (table : Table)
    (id : RenShimId) (entry : TableEntry) (stack : RenStack)
    (order : List Nat) (v : Nat → Value) (res : Value)
    (hlk : tableLookup table id = some entry)
    (hord : order.Perm (List.range sig.arity))
    (hcon : ∀ i ∈ order,
      sig.construct i entry.engine (stack.args i) = .ok (v i))
    (happ : entry.fun_ ((List.range sig.arity).map v) = .ok res) :
    bounceShim sig table id stack order =
      (order.map (fun i => .construct i entry.engine (stack.args i))
         ++ [.apply],
       { stack with ret := res.cell }, .ok REN_SUCCESS) := by
  have ha := applyFun_all_ok sig entry.fun_ entry.engine stack order v
    hord hcon
  rw [happ] at ha
  simp [bounceShim, hlk, ha]

/-- C1 witness: the spec's scenario — a two-argument integer-adding
callable registered under spec `a [integer!] b [integer!]`, invoked with
stack values `(2, 3)`, yields return slot `5` and status success. -/
theorem C1_witness :
    tableLookup [⟨engine0, adder⟩] 0 = some ⟨engine0, adder⟩ ∧
    adder ((List.range intSig.arity).map (fun i => ⟨stack23.args i⟩)) =
      .ok ⟨5⟩ ∧
    (bounceShim intSig [⟨engine0, adder⟩] 0 stack23 [0, 1]).2 =
      ({ stack23 with ret := 5 }, .ok REN_SUCCESS) := by
  refine ⟨rfl, rfl, ?_⟩
  have h := C1_bounceShim_dispatch intSig [⟨engine0, adder⟩] 0
    ⟨engine0, adder⟩ stack23 [0, 1] (fun i => ⟨stack23.args i⟩) ⟨5⟩
    rfl (by decide) (fun i _ => rfl) rfl
  rw [h]

/-- C3 counterexample: the claim that the argument values are constructed
in strictly left-to-right positional order fails on the code. The
constructions are the argument expressions of the single call expression
in `applyFunImpl`, whose evaluation order ISO C++ leaves unspecified: the
conforming evaluation order `[1, 0]` constructs position 1 first, so on
the scenario's invocation the event trace is not the left-to-right one. -/
theorem C3_counterexample :
    ¬ (∀ order : List Nat, order.Perm (List.range intSig.arity) →
        (applyFun intSig adder engine0 stack23 order).1 =
          (List.range intSig.arity).map
              (fun i => MarshalEvent.construct i engine0 (stack23.args i))
            ++ [MarshalEvent.apply]) := by
  intro h
  have h10 := h [1, 0] (by decide)
  exact absurd h10 (by decide)

/-- C3 (amended): for every invocation of a registered callable of arity
`k`, the `k` argument values are each constructed from the raw stack slot
at their own position, from the statically-known argument type at that
position, using the entry's engine context, and all `k` constructions
complete before the callable is applied to the positionally ordered
tuple; the relative evaluation order of the `k` constructions is the
implementation's (unspecified) argument evaluation order — one
construction per position, but not necessarily left-to-right. -/
theorem C3_construction_order (sig : SigModel) (fun_ : FunType)
    (engine : RenEngineHandle) (stack : RenStack) (order : List Nat)
    (v : Nat → Value)
    (hord : order.Perm (List.range sig.arity))
    (hcon : ∀ i ∈ order, sig.construct i engine (stack.args i) = .ok (v i)) :
    applyFun sig fun_ engine stack order =
      (order.map (fun i => .construct i engine (stack.args i)) ++ [.apply],
       fun_ ((List.range sig.arity).map v)) ∧
    (order.map (fun i => MarshalEvent.construct i engine (stack.args i))).Perm
      ((List.range sig.arity).map
        (fun i => MarshalEvent.construct i engine (stack.args i))) :=
  ⟨applyFun_all_ok sig fun_ engine stack order v hord hcon,
   hord.map (fun i => MarshalEvent.construct i engine (stack.args i))⟩

/-- C3 witness: on the scenario's invocation under the right-to-left
evaluation order `[1, 0]`, both constructions run (position 1 first, each
from its own slot), then the adder is applied to the positional tuple
`(2, 3)`. -/
theorem C3_witness :
    applyFun intSig adder engine0 stack23 [1, 0] =
      ([.construct 1 engine0 3, .construct 0 engine0 2, .apply],
       .ok ⟨5⟩) := by
  have h := C3_construction_order intSig adder engine0 stack23 [1, 0]
    (fun i => ⟨stack23.args i⟩) (by decide) (fun i _ => rfl)
  rw [h.1]
  rfl

/-- C4: if constructing any typed argument value from a raw stack slot
fails, or the callable's application fails, the error propagates as a
runtime error to the caller of `bounceShim`, the stack's return slot is
not written (the stack comes back unchanged), and — for construction
failures — the underlying callable does not run (no `apply` event). -/
theorem C4_error_propagation (sig : SigModel) (table : Table)
    (id : RenShimId) (entry : TableEntry) (stack : RenStack)
    (order : List Nat) (tr : List MarshalEvent) (e : RenError)
    (hlk : tableLookup table id = some entry)
    (happ : applyFun sig entry.fun_ entry.engine stack order =
      (tr, .error e)) :
    bounceShim sig table id stack order = (tr, stack, .error e) ∧
    ((∃ e0, (evalArgsInOrder sig entry.engine stack order).2 = .error e0) →
      MarshalEvent.apply ∉ tr) := by
  constructor
  · simp [bounceShim, hlk, happ]
  · rintro ⟨e0, he0⟩
    have hnot := apply_not_mem_evalArgs sig entry.engine stack order
    rcases hev : evalArgsInOrder sig entry.engine stack order with ⟨tr0, r0⟩
    rw [hev] at hnot he0
    cases r0 with
    | error e1 =>
      have : applyFun sig entry.fun_ entry.engine stack order =
          (tr0, .error e1) := by
        simp [applyFun, hev]
      rw [happ] at this
      obtain ⟨h1, h2⟩ := Prod.mk.injEq .. ▸ this
      rw [h1]
      exact hnot
    | ok pairs => simp at he0

/-- C4 witness: with a signature whose construction of argument position 1
fails with a conversion error, invoking with stack values `(2, 3)`
propagates the conversion error, runs no callable (`apply` event absent),
and leaves the return slot unwritten. -/
theorem C4_witness :
    tableLookup [⟨engine0, adder⟩] 0 = some ⟨engine0, adder⟩ ∧
    (bounceShim failSig [⟨engine0, adder⟩] 0 stack23 [0, 1]).2 =
      (stack23, .error .conversionError) ∧
    MarshalEvent.apply ∉
      (bounceShim failSig [⟨engine0, adder⟩] 0 stack23 [0, 1]).1 := by
  have h := C4_error_propagation failSig [⟨engine0, adder⟩] 0
    ⟨engine0, adder⟩ stack23 [0, 1]
    [.construct 0 engine0 2, .construct 1 engine0 3] .conversionError
    rfl rfl
  refine ⟨rfl, ?_, ?_⟩
  · rw [h.1]
  · rw [show (bounceShim failSig [⟨engine0, adder⟩] 0 stack23 [0, 1]).1 =
        [.construct 0 engine0 2, .construct 1 engine0 3] from by rw [h.1]]
    exact h.2 ⟨.conversionError, rfl⟩

/-- C2: a `REN_STD_FUNCTION` trampoline's private identity transitions
from the unset sentinel to initialized exactly once — during the single
identify-phase call issued while the registration code holds a captured
id (never the sentinel) in the slots; every call after that forwards to
the captured bouncer with the same captured id, leaves the private
statics unchanged, and never re-enters the identify phase. -/
theorem C2_trampoline_identity (slots : CaptureSlots) (st : ShimState)
    (stack : Option RenStack)
    (hfresh : st.id = -1)
    (hcap : slots.shimIdToCapture ≠ -1) :
    renStdFunctionStep slots st stack =
      (⟨slots.shimIdToCapture, slots.shimBouncerToCapture⟩, .identified) ∧
    ∀ calls : List (CaptureSlots × Option RenStack),
      shimRun ⟨slots.shimIdToCapture, slots.shimBouncerToCapture⟩ calls =
        (⟨slots.shimIdToCapture, slots.shimBouncerToCapture⟩,
         calls.map (fun c =>
           .forwarded slots.shimBouncerToCapture slots.shimIdToCapture
             c.2)) := by
  constructor
  · simp [renStdFunctionStep, hfresh]
  · exact shimRun_already_identified
      ⟨slots.shimIdToCapture, slots.shimBouncerToCapture⟩ hcap

/-- C2 witness: a fresh trampoline identified under capture slots holding
id `0` forwards two later calls (under arbitrary slot contents) to the
captured bouncer with id `0`, re-entering the identify phase never. -/
theorem C2_witness :
    renStdFunctionStep ⟨0, some .bounceShimRef⟩ ShimState.fresh none =
      (⟨0, some .bounceShimRef⟩, .identified) ∧
    shimRun ⟨0, some .bounceShimRef⟩
        [(CaptureSlots.empty, none), (⟨7, none⟩, none)] =
      (⟨0, some .bounceShimRef⟩,
       [.forwarded (some .bounceShimRef) 0 none,
        .forwarded (some .bounceShimRef) 0 none]) := by
  have h := C2_trampoline_identity ⟨0, some .bounceShimRef⟩
    ShimState.fresh none rfl (by decide)
  exact ⟨h.1, h.2 [(CaptureSlots.empty, none), (⟨7, none⟩, none)]⟩

/-- C5: if the identify-phase call returns anything other than
`REN_SHIM_INITIALIZED`, registration fails immediately with a
construction error (the thrown `std::runtime_error`) and no entry is
appended: the table carried in the error state is the table as it was
before the registration. -/
theorem C5_registration_aborts (engine : RenEngineHandle) (spec : Block)
    (shim : RenShimPointer) (fun_ : FunType) (s : RegState)
    (st st1 : ShimState) (code : Int)
    (hempty : s.slots = CaptureSlots.empty)
    (hshim : shim ⟨(s.table.length : Int), some .bounceShimRef⟩ st =
      (st1, .status code))
    (hcode : code ≠ REN_SHIM_INITIALIZED) :
    functionGenerator engine spec shim fun_ s st =
      .error (.shimNotInitialized,
        ⟨⟨(s.table.length : Int), some .bounceShimRef⟩, s.table⟩, st1) := by
  simp [functionGenerator, hempty, hshim, hcode]

/-- C5 witness: registering through a mis-wired shim whose first call
returns `REN_SUCCESS` instead of `REN_SHIM_INITIALIZED` aborts with the
construction error, the dispatch table still empty. -/
theorem C5_witness :
    badShim ⟨0, some .bounceShimRef⟩ ShimState.fresh =
      (ShimState.fresh, .status REN_SUCCESS) ∧
    functionGenerator engine0 specBlock badShim adder
        ⟨CaptureSlots.empty, []⟩ ShimState.fresh =
      .error (.shimNotInitialized,
        ⟨⟨0, some .bounceShimRef⟩, []⟩, ShimState.fresh) :=
  ⟨rfl,
   C5_registration_aborts engine0 specBlock badShim adder
     ⟨CaptureSlots.empty, []⟩ ShimState.fresh ShimState.fresh REN_SUCCESS
     rfl rfl (by decide)⟩

/-- C6 exhibit: the claim that the Registration Capture Slots are empty
after every registration fails for registrations that abort. The
constructor throws before the lines that clear the slots, so a failed
registration (here: from a completely clean initial state, through a shim
whose identify call does not return `REN_SHIM_INITIALIZED`) leaves the
slots holding the pending id `0` and the pending bouncer reference — the
very state the constructor's own `assert`s require to be impossible at
the start of the next registration. -/
theorem C6_capture_slots_leak :
    functionGenerator engine0 specBlock badShim adder
        ⟨CaptureSlots.empty, []⟩ ShimState.fresh =
      .error (.shimNotInitialized,
        ⟨⟨0, some .bounceShimRef⟩, []⟩, ShimState.fresh) ∧
    (⟨0, some .bounceShimRef⟩ : CaptureSlots) ≠ CaptureSlots.empty ∧
    functionGenerator engine0 specBlock renStdShimNull adder
        ⟨⟨0, some .bounceShimRef⟩, []⟩ ShimState.fresh =
      .error (.assertionFailed,
        ⟨⟨0, some .bounceShimRef⟩, []⟩, ShimState.fresh) :=
  ⟨rfl, by decide, rfl⟩

/-- C7: for two callables of the same signature registered in sequence,
the issued ids are distinct, and every issued id resolves to its own
`(engine, callable)` entry; the dispatch table is append-only — any
further successful registration leaves every previously in-bounds lookup
unchanged. -/
theorem C7_ids_distinct_and_stable (engA engB : RenEngineHandle)
    (specA specB : Block) (A B : FunType) (t0 : Table)
    (s1 s2 : RegState) (stA stB : ShimState)
    (hA : functionGenerator engA specA renStdShimNull A
      ⟨CaptureSlots.empty, t0⟩ ShimState.fresh = .ok (s1, stA))
    (hB : functionGenerator engB specB renStdShimNull B s1
      ShimState.fresh = .ok (s2, stB)) :
    stA.id ≠ stB.id ∧
    tableLookup s2.table stA.id = some ⟨engA, A⟩ ∧
    tableLookup s2.table stB.id = some ⟨engB, B⟩ ∧
    (∀ (engC : RenEngineHandle) (specC : Block) (shimC : RenShimPointer)
       (C : FunType) (stC : ShimState) (s3 : RegState) (stC' : ShimState),
      functionGenerator engC specC shimC C s2 stC = .ok (s3, stC') →
      ∀ id : RenShimId, id.toNat < s2.table.length →
        tableLookup s3.table id = tableLookup s2.table id) := by
  rw [functionGenerator_std_ok] at hA
  obtain ⟨hA1, hA2⟩ := Prod.mk.injEq .. ▸ Except.ok.inj hA
  subst hA1
  rw [functionGenerator_std_ok] at hB
  obtain ⟨hB1, hB2⟩ := Prod.mk.injEq .. ▸ Except.ok.inj hB
  subst hB1
  rw [← hA2, ← hB2]
  refine ⟨?_, ?_, ?_, ?_⟩
  · intro hcontra
    have : (t0.length : Int) =
        ((t0 ++ [TableEntry.mk engA A]).length : Int) := hcontra
    simp at this
  · have hlt : ((t0.length : Int)).toNat <
        (t0 ++ [TableEntry.mk engA A]).length := by
      simp
    rw [tableLookup_append_of_lt _ _ _ hlt, tableLookup_concat_length]
  · exact tableLookup_concat_length _ _
  · intro engC specC shimC C stC s3 stC' hC id hid
    obtain ⟨_, h3⟩ := functionGenerator_ok_parts engC specC shimC C _
      stC s3 stC' hC
    rw [h3]
    exact tableLookup_append_of_lt _ _ _ hid

/-- C7 witness: two integer adders registered in sequence from an empty
table get ids `0` and `1`, each resolving to its own entry. -/
theorem C7_witness :
    (0 : RenShimId) ≠ 1 ∧
    tableLookup [⟨engine0, adder⟩, ⟨engine1, adder⟩] 0 =
      some ⟨engine0, adder⟩ ∧
    tableLookup [⟨engine0, adder⟩, ⟨engine1, adder⟩] 1 =
      some ⟨engine1, adder⟩ := by
  have h := C7_ids_distinct_and_stable engine0 engine1 specBlock specBlock
    adder adder []
    ⟨CaptureSlots.empty, [⟨engine0, adder⟩]⟩
    ⟨CaptureSlots.empty, [⟨engine0, adder⟩, ⟨engine1, adder⟩]⟩
    ⟨0, some .bounceShimRef⟩ ⟨1, some .bounceShimRef⟩ rfl rfl
  exact ⟨h.1, h.2.1, h.2.2.1⟩

/-- C8: an id issued by a completed registration of the signature
satisfies `0 ≤ id < table.size()`, so the lookup `table[id]` performed by
`bounceShim` is in bounds and finds the entry appended for that id; an
out-of-range id (negative, or at least the table size) finds no entry —
it is the programming-error condition that is unreachable under correct
usage, not a recoverable error. -/
theorem C8_issued_id_in_bounds (engine : RenEngineHandle) (spec : Block)
    (fun_ : FunType) (t : Table) (s' : RegState) (st' : ShimState)
    (h : functionGenerator engine spec renStdShimNull fun_
      ⟨CaptureSlots.empty, t⟩ ShimState.fresh = .ok (s', st')) :
    0 ≤ st'.id ∧ st'.id.toNat < s'.table.length ∧
    tableLookup s'.table st'.id = some ⟨engine, fun_⟩ ∧
    ∀ id : RenShimId, s'.table.length ≤ id.toNat ∨ id < 0 →
      tableLookup s'.table id = none := by
  rw [functionGenerator_std_ok] at h
  obtain ⟨h1, h2⟩ := Prod.mk.injEq .. ▸ Except.ok.inj h
  subst h1
  rw [← h2]
  refine ⟨Int.natCast_nonneg t.length, by simp, tableLookup_concat_length _ _,
    ?_⟩
  intro id hid
  rcases hid with hge | hneg
  · by_cases h0 : id < 0
    · simp [tableLookup, h0]
    · simp only [tableLookup, if_neg h0]
      exact List.getElem?_eq_none hge
  · simp [tableLookup, hneg]

/-- C8 witness: the id issued by registering the adder into a one-entry
table is `1`, in bounds of the two-entry result, while ids `2` and `-1`
are out of range and find no entry. -/
theorem C8_witness :
    (0 : Int) ≤ 1 ∧
    tableLookup [⟨engine1, adder⟩, ⟨engine0, adder⟩] 1 =
      some ⟨engine0, adder⟩ ∧
    tableLookup [⟨engine1, adder⟩, ⟨engine0, adder⟩] 2 = none ∧
    tableLookup [⟨engine1, adder⟩, ⟨engine0, adder⟩] (-1) = none := by
  have h := C8_issued_id_in_bounds engine0 specBlock adder [⟨engine1, adder⟩]
    ⟨CaptureSlots.empty, [⟨engine1, adder⟩, ⟨engine0, adder⟩]⟩
    ⟨1, some .bounceShimRef⟩ rfl
  exact ⟨h.1, h.2.2.1, h.2.2.2 2 (Or.inl (by decide)),
    h.2.2.2 (-1) (Or.inr (by decide))⟩

/-- C9: the id issued by a successful registration equals the number of
entries previously registered in the signature's dispatch table at the
moment of capture, and it is the index at which the new entry is
appended — so per signature, ids are issued consecutively from `0`. -/
theorem C9_id_is_prior_table_size (engine : RenEngineHandle) (spec : Block)
    (fun_ : FunType) (t : Table) :
    functionGenerator engine spec renStdShimNull fun_
        ⟨CaptureSlots.empty, t⟩ ShimState.fresh =
      .ok (⟨CaptureSlots.empty, t ++ [⟨engine, fun_⟩]⟩,
           ⟨(t.length : Int), some .bounceShimRef⟩) ∧
    tableLookup (t ++ [⟨engine, fun_⟩]) (t.length : Int) =
      some ⟨engine, fun_⟩ :=
  ⟨functionGenerator_std_ok engine spec fun_ t,
   tableLookup_concat_length t ⟨engine, fun_⟩⟩

/-- C10: if a trampoline's first call occurs while the Registration
Capture Slots are empty, it captures the unset sentinel `-1` and the null
bouncer, returns `REN_SHIM_INITIALIZED` without forwarding, and remains
unidentified — its next call (under any slots) runs the identify phase
again; and the identify phase never reads or writes the argument stack
(its result is the same for every stack argument). -/
theorem C10_premature_first_call (st : ShimState)
    (stack stack2 : Option RenStack)
    (hfresh : st.id = -1) :
    renStdFunctionStep CaptureSlots.empty st stack =
      (ShimState.fresh, .identified) ∧
    renStdFunctionStep CaptureSlots.empty st stack =
      renStdFunctionStep CaptureSlots.empty st stack2 ∧
    ∀ (slots2 : CaptureSlots) (stack3 : Option RenStack),
      (renStdFunctionStep slots2 ShimState.fresh stack3).2 = .identified := by
  refine ⟨?_, ?_, ?_⟩
  · simp [renStdFunctionStep, hfresh, CaptureSlots.empty, ShimState.fresh]
  · simp [renStdFunctionStep, hfresh]
  · intro slots2 stack3
    simp [renStdFunctionStep, ShimState.fresh]

/-- C10 witness: a fresh trampoline called first on a real stack while the
slots are empty stays fresh, returns the initialized status regardless of
the stack, and identifies again on its next call. -/
theorem C10_witness :
    renStdFunctionStep CaptureSlots.empty ShimState.fresh (some stack23) =
      (ShimState.fresh, .identified) ∧
    renStdFunctionStep CaptureSlots.empty ShimState.fresh (some stack23) =
      renStdFunctionStep CaptureSlots.empty ShimState.fresh none ∧
    (renStdFunctionStep ⟨5, some .bounceShimRef⟩ ShimState.fresh
        (some stack23)).2 = .identified := by
  have h := C10_premature_first_call ShimState.fresh (some stack23) none rfl
  exact ⟨h.1, h.2.1, h.2.2 ⟨5, some .bounceShimRef⟩ (some stack23)⟩

end ren
